import Mathlib

/-!
Formal model of `chatbot.py`, a command-line mental-health chat client.

Strings are modelled as Lean `String`s, but every operation the proofs
reason about (splitting on newlines, stripping whitespace, substring
search, lowercasing, replacement) is implemented over the underlying
character list `String.data`, mirroring the Python semantics of
`str.split('\n')`, `str.strip()`, `in`, `str.lower()` and `str.replace`.
Unicode case folding and exotic Unicode whitespace are modelled at the
ASCII level, which is exact for every constant the program matches
against.  The JSON log file is modelled as an optional JSON syntax tree
(`Option Json`, `none` = file absent); the remote completion endpoint is
modelled as a function from the request message list to either a failure
or the finite list of streamed fragment contents (`none` fragments model
deltas whose `content` field is `None`).  The wall clock is a string
parameter `dt`.
-/

namespace MentalHealthBot

/-- ASCII whitespace as recognised by Python's default `str.strip`. -/
def isPySpace (c : Char) : Bool :=
  c == ' ' || c == '\t' || c == '\n' || c == '\r' || c == '\x0b' || c == '\x0c'

/-- Remove leading and trailing whitespace from a character list
(Python `str.strip()`). -/
def stripChars (l : List Char) : List Char :=
  ((l.dropWhile isPySpace).reverse.dropWhile isPySpace).reverse

/-- Python `str.strip()`. -/
def pyStrip (s : String) : String :=
  ⟨stripChars s.data⟩

/-- Python `str.lower()` (ASCII case folding). -/
def pyLower (s : String) : String :=
  ⟨s.data.map Char.toLower⟩

/-- Substring test on character lists: does `needle` occur contiguously
inside `hay`?  This is Python's `needle in hay` on strings. -/
def listSub (needle : List Char) : List Char → Bool
  | [] => needle.isEmpty
  | c :: t => needle.isPrefixOf (c :: t) || listSub needle t

/-- Prepend a character to the first piece of a split result (used by
`splitOnChar`); on the empty list it creates a singleton piece. -/
def consHead (c : Char) : List (List Char) → List (List Char)
  | [] => [[c]]
  | h :: r => (c :: h) :: r

/-- Split a character list on every occurrence of `sep`, keeping empty
pieces — Python `str.split(sep)` for a one-character separator.  The
result is always nonempty. -/
def splitOnChar (sep : Char) : List Char → List (List Char)
  | [] => [[]]
  | c :: t =>
    if c = sep then [] :: splitOnChar sep t
    else consHead c (splitOnChar sep t)

/-- Join pieces with a newline between consecutive pieces
(Python `'\n'.join(pieces)`). -/
def joinWithNl : List (List Char) → List Char
  | [] => []
  | [x] => x
  | x :: y :: r => x ++ '\n' :: joinWithNl (y :: r)

/-- Replace every non-overlapping occurrence of `needle` by `repl`,
scanning left to right, with an explicit fuel (the fuel is instantiated
with the length of the list, which suffices for a nonempty needle).
Mirrors Python `str.replace` for nonempty needles. -/
def replaceFuel (needle repl : List Char) : Nat → List Char → List Char
  | _, [] => []
  | 0, l => l
  | fuel + 1, c :: t =>
    if needle.isPrefixOf (c :: t) then
      repl ++ replaceFuel needle repl fuel (List.drop (needle.length - 1) t)
    else
      c :: replaceFuel needle repl fuel t

/-- Python `s.replace(needle, repl)` (for the nonempty needles the
program uses). -/
def pyReplace (s needle repl : String) : String :=
  ⟨replaceFuel needle.data repl.data s.data.length s.data⟩

/-- Python `l[-n:]`: the final `n` elements of a list (the whole list
when it is shorter than `n`). -/
def takeLast (n : Nat) (l : List α) : List α :=
  l.drop (l.length - n)

/-- One `{role, content}` record of the conversation log. -/
structure Message where
  role : String
  content : String
deriving DecidableEq, Repr

/-- Model of `CRISIS_KEYWORDS` (chatbot.py lines 16–20). -/
def CRISIS_KEYWORDS : List String :=
  ["suicide", "kill myself", "end my life", "want to die", "suicidal",
   "harm myself", "self harm", "cut myself", "overdose", "not worth living",
   "better off dead", "ending it all", "can't go on", "hopeless"]

/-- Default display name for the user (`.env` fallback). -/
def username : String := "User"

/-- Default display name for the assistant (`.env` fallback). -/
def assistant_name : String := "MindfulBot"

/-- The persona system prompt `MENTAL_HEALTH_SYSTEM` (chatbot.py lines
23–58), with the two `.env`-derived names interpolated. -/
def MENTAL_HEALTH_SYSTEM : String :=
  "You are " ++ assistant_name ++ ", a compassionate and professionally-trained mental health support chatbot created to help " ++ username ++ ".\n\nCORE PRINCIPLES:\n- Be empathetic, non-judgmental, and supportive\n- Use active listening techniques and validate emotions\n- Provide evidence-based coping strategies and resources\n- Maintain appropriate boundaries - you are supportive but not a replacement for professional therapy\n- Always prioritize user safety\n\nCOMMUNICATION STYLE:\n- Use warm, understanding language\n- Ask open-ended questions to encourage reflection\n- Reflect back what you hear to show understanding\n- Normalize mental health struggles\n- Be present-focused and solution-oriented when appropriate\n\nSAFETY PROTOCOLS:\n- If user expresses suicidal thoughts or self-harm, immediately provide crisis resources\n- Encourage professional help for serious mental health concerns\n- Never diagnose or provide medical advice\n- Recognize when situations exceed your scope\n\nTHERAPEUTIC TECHNIQUES TO USE:\n- Cognitive Behavioral Therapy (CBT) principles\n- Mindfulness and grounding techniques\n- Emotional validation and normalization\n- Stress management strategies\n- Goal-setting and problem-solving support\n\nLIMITATIONS TO REMEMBER:\n- You are not a licensed therapist or medical professional\n- Always recommend professional help for persistent or severe symptoms\n- Cannot prescribe medications or provide medical diagnoses\n- Available 24/7 for support but encourage building real-world support networks\n\nRespond with empathy, practical support, and appropriate resources while maintaining professional boundaries."

/-- Model of `check_crisis_keywords` (chatbot.py lines 72–75): true iff any
keyword occurs as a substring of the lowercased input. -/
def check_crisis_keywords (text : String) : Bool :=
  CRISIS_KEYWORDS.any (fun keyword => listSub keyword.data (pyLower text).data)

/-- Model of `get_crisis_resources` (chatbot.py lines 77–99): the fixed
crisis-resource text block (it begins and ends with a newline and
contains blank lines between regions). -/
def get_crisis_resources : String :=
  "\n🆘 IMMEDIATE CRISIS RESOURCES:\n\n🇺🇸 United States:\n• National Suicide Prevention Lifeline: 988\n• Crisis Text Line: Text HOME to 741741\n• Emergency: 911\n\n🇬🇧 United Kingdom:\n• Samaritans: 116 123\n• Emergency: 999\n\n🇨🇦 Canada:\n• Talk Suicide Canada: 1-833-456-4566\n• Emergency: 911\n\n🌍 International:\n• International Association for Suicide Prevention: https://www.iasp.info/resources/Crisis_Centres/\n\nRemember: You matter, your life has value, and help is available. Please reach out to these resources or go to your nearest emergency room if you're in immediate danger.\n"

/-- The line list built by `clean_response` (chatbot.py lines 118–119):
split on newlines, strip each line and keep the nonempty ones. -/
def cleanPieces (l : List Char) : List (List Char) :=
  ((splitOnChar '\n' l).map stripChars).filter (fun p => !p.isEmpty)

/-- Model of `clean_response` (chatbot.py lines 116–120): split on newlines,
strip each line, drop the now-empty lines and rejoin with single
newlines. -/
def clean_response (response : String) : String :=
  ⟨joinWithNl (cleanPieces response.data)⟩

/-- The system message injected when a crisis is detected
(chatbot.py lines 144–147). -/
def CRISIS_INSTRUCTION : String :=
  "ALERT: User may be in crisis. Respond with immediate empathy, validation, and provide crisis resources. Encourage immediate professional help."

/-- The fixed fallback apology returned when any exception is caught
during a turn (chatbot.py line 191). -/
def FALLBACK_APOLOGY : String :=
  "I apologize, but I encountered a technical issue. Let's start fresh. How are you feeling right now, and how can I support you today?"

/-- The streamed-response accumulation loop (chatbot.py lines 162–165):
start from the empty string and append each fragment whose content is
truthy (neither `None` nor empty). -/
def collectStream (chunks : List (Option String)) : String :=
  chunks.foldl
    (fun response c =>
      match c with
      | some s => if s = "" then response else response ++ s
      | none => response)
    ""

/-- The current user's message record (chatbot.py line 133). -/
def userMsg (user_input : String) : Message :=
  ⟨"user", user_input⟩

/-- The system-message block built for one turn (chatbot.py lines
137–148): persona prompt, date/time message and — on crisis turns —
the crisis instruction. -/
def system_messages (user_input dt : String) : List Message :=
  [⟨"system", MENTAL_HEALTH_SYSTEM⟩,
   ⟨"system", "Current date and time: " ++ dt⟩] ++
  (if check_crisis_keywords user_input then [⟨"system", CRISIS_INSTRUCTION⟩] else [])

/-- The message list handed to the completion client (chatbot.py line
153): the system messages followed by the last 10 entries of the
history with the current user message appended. -/
def requestMessages (user_input dt : String) (history : List Message) : List Message :=
  system_messages user_input dt ++ takeLast 10 (history ++ [userMsg user_input])

/-- The model reply after stream collection, `</s>` removal and
stripping (chatbot.py line 168). -/
def strippedReply (chunks : List (Option String)) : String :=
  pyStrip (pyReplace (collectStream chunks) "</s>" "")

/-- The response string stored for the turn (chatbot.py lines 168–172):
the stripped reply, with the crisis-resource block appended after two
newlines on crisis turns. -/
def rawResponse (user_input : String) (chunks : List (Option String)) : String :=
  if check_crisis_keywords user_input then
    strippedReply chunks ++ "\n\n" ++ get_crisis_resources
  else
    strippedReply chunks

/-- Model of `mental_health_chatbot` (chatbot.py lines 122–191), acting on the
already-loaded history list.  `complete` models the remote completion
call: it receives the request messages and yields either a failure (an
exception) or the streamed fragments.  Returns the text shown to the
caller and the list that is then persisted.  On failure the persisted
list is reset to empty and the fallback apology returned
(lines 185–191). -/
def mental_health_chatbot (user_input dt : String)
    (complete : List Message → Except Unit (List (Option String)))
    (history : List Message) : String × List Message :=
  match complete (requestMessages user_input dt history) with
  | .error _ => (FALLBACK_APOLOGY, [])
  | .ok chunks =>
    let response := rawResponse user_input chunks
    let messages := (history ++ [userMsg user_input]) ++ [⟨"assistant", response⟩]
    let saved := if messages.length > 20 then takeLast 20 messages else messages
    (clean_response response, saved)

/-- A fragment of JSON syntax sufficient for the persisted log: strings,
arrays and objects. -/
inductive Json where
  | str (s : String)
  | arr (elems : List Json)
  | obj (fields : List (String × Json))

/-- Encoding of one message record as a JSON object, as `json.dump`
writes it. -/
def encodeMessage (m : Message) : Json :=
  .obj [("role", .str m.role), ("content", .str m.content)]

/-- Encoding of the whole log as a JSON array. -/
def encodeLog (ms : List Message) : Json :=
  .arr (ms.map encodeMessage)

/-- Decoding of one message record; `none` models a malformed record on
which the Python program would raise. -/
def decodeMessage : Json → Option Message
  | .obj fields =>
    match fields.lookup "role", fields.lookup "content" with
    | some (.str r), some (.str c) => some ⟨r, c⟩
    | _, _ => none
  | _ => none

/-- Decoding of a list of records, failing if any record fails. -/
def decodeList : List Json → Option (List Message)
  | [] => some []
  | j :: t =>
    match decodeMessage j, decodeList t with
    | some m, some ms => some (m :: ms)
    | _, _ => none

/-- Decoding of the whole log; `none` models persisted content on which
the Python program would raise while processing the turn. -/
def decodeLog : Json → Option (List Message)
  | .arr es => decodeList es
  | _ => none

/-- Model of `load_conversation_history` (chatbot.py lines 101–109) over the
modelled file (`none` = file absent).  When the file is absent it
writes an empty log and returns the empty list; otherwise it returns
the decoded content (with `none` modelling a turn-aborting parse
failure) and leaves the file unchanged. -/
def load_conversation_history : Option Json → Option (List Message) × Option Json
  | none => (some [], some (encodeLog []))
  | some j => (decodeLog j, some j)

/-- Model of `save_conversation_history` (chatbot.py lines 111–114): overwrite
the file with the encoded log. -/
def save_conversation_history (messages : List Message) : Option Json :=
  some (encodeLog messages)

/-- One full orchestrator turn at the level of the persisted file:
load (creating the file when absent), run the in-memory turn, persist.
A load-time failure takes the `except` path of chatbot.py lines
185–191: the file is reset to an empty log and the fallback apology
returned. -/
def chatbotTurn (user_input dt : String)
    (complete : List Message → Except Unit (List (Option String)))
    (file : Option Json) : String × Option Json :=
  match load_conversation_history file with
  | (some history, _) =>
    let r := mental_health_chatbot user_input dt complete history
    (r.1, save_conversation_history r.2)
  | (none, _) => (FALLBACK_APOLOGY, some (encodeLog []))

/-- The two states of the CLI loop. -/
inductive LoopState where
  | Running
  | Terminated
deriving DecidableEq, Repr

/-- The exit words of the CLI loop (chatbot.py line 228). -/
def EXIT_WORDS : List String :=
  ["quit", "exit", "goodbye", "bye"]

/-- Observable outcome of feeding one input line to the CLI loop body:
the next loop state, how many orchestrator turns ran (0 or 1), what was
printed as the bot reply (if any) and the resulting persisted file. -/
structure StepResult where
  state : LoopState
  turns : Nat
  printed : Option String
  file : Option Json

/-- One iteration of `main`'s loop (chatbot.py lines 224–237): strip
the line; an exit word (case-insensitively) terminates with no turn;
an empty stripped line is ignored; otherwise one orchestrator turn runs
on the stripped line and its result is printed. -/
def cliStep (dt : String)
    (complete : List Message → Except Unit (List (Option String)))
    (file : Option Json) (line : String) : StepResult :=
  let user_input := pyStrip line
  if EXIT_WORDS.contains (pyLower user_input) then
    ⟨.Terminated, 0, none, file⟩
  else if user_input = "" then
    ⟨.Running, 0, none, file⟩
  else
    let r := chatbotTurn user_input dt complete file
    ⟨.Running, 1, some r.1, r.2⟩

/-! ## General lemmas about the string model -/

theorem str_eq_iff_data (s t : String) : s = t ↔ s.data = t.data :=
  ⟨congrArg String.data, String.ext⟩

theorem listSub_iff (needle hay : List Char) : listSub needle hay = true ↔ needle <:+: hay := by
  induction hay with
  | nil => simp [listSub, List.isEmpty_iff]
  | cons c t ih =>
    simp only [listSub, Bool.or_eq_true, ih, List.infix_cons_iff,
      List.isPrefixOf_iff_prefix]

/-! ## Round-tripping of the persisted JSON log -/

theorem decodeMessage_encodeMessage (m : Message) :
    decodeMessage (encodeMessage m) = some m := rfl

theorem decodeList_map_encodeMessage (ms : List Message) :
    decodeList (ms.map encodeMessage) = some ms := by
  induction ms with
  | nil => rfl
  | cons m t ih => simp [decodeList, decodeMessage_encodeMessage, ih]

theorem decodeLog_encodeLog (ms : List Message) :
    decodeLog (encodeLog ms) = some ms := by
  simp [decodeLog, encodeLog, decodeList_map_encodeMessage]

/-- C6: for every sequence of messages, saving and then loading returns
the same sequence, with order and content preserved exactly, and leaves
the persisted file holding exactly the encoded log. -/
theorem save_then_load_roundtrip (ms : List Message) :
    load_conversation_history (save_conversation_history ms) =
      (some ms, some (encodeLog ms)) := by
  simp [load_conversation_history, save_conversation_history, decodeLog_encodeLog]

/-- C7: when the persisted log file is absent, loading creates an empty
persisted log and returns the empty sequence; and loading after a reset
(saving the empty sequence) returns the empty sequence. -/
theorem load_missing_creates_empty :
    load_conversation_history none = (some [], some (encodeLog [])) ∧
    (load_conversation_history (save_conversation_history [])).1 = some [] :=
  ⟨rfl, rfl⟩

/-! ## Error handling -/

/-- C3: whenever an exception occurs during a turn — whether the
completion client raises (first conjunct, for every prior file content)
or the persisted history fails to load (second conjunct) — the turn
returns the fixed fallback apology and the persisted log is reset to
the empty sequence. -/
theorem exception_resets_log (user_input dt : String) (file : Option Json) (j : Json)
    (complete : List Message → Except Unit (List (Option String)))
    (hj : decodeLog j = none) :
    chatbotTurn user_input dt (fun _ => .error ()) file =
      (FALLBACK_APOLOGY, some (encodeLog [])) ∧
    chatbotTurn user_input dt complete (some j) =
      (FALLBACK_APOLOGY, some (encodeLog [])) := by
  constructor
  · cases file with
    | none => rfl
    | some j' =>
      cases h : decodeLog j' <;>
        simp [chatbotTurn, load_conversation_history, h, mental_health_chatbot,
          save_conversation_history]
  · simp [chatbotTurn, load_conversation_history, hj]

theorem exception_resets_log_witness :
    decodeLog (Json.str "oops") = none ∧
    chatbotTurn "hi" "dt" (fun _ => .error ()) (some (encodeLog [⟨"user", "x"⟩])) =
      (FALLBACK_APOLOGY, some (encodeLog [])) ∧
    chatbotTurn "hi" "dt" (fun _ => .ok [some "ok"]) (some (Json.str "oops")) =
      (FALLBACK_APOLOGY, some (encodeLog [])) :=
  ⟨rfl,
   (exception_resets_log "hi" "dt" (some (encodeLog [⟨"user", "x"⟩])) (Json.str "oops")
     (fun _ => .ok [some "ok"]) rfl).1,
   (exception_resets_log "hi" "dt" (some (encodeLog [⟨"user", "x"⟩])) (Json.str "oops")
     (fun _ => .ok [some "ok"]) rfl).2⟩

/-! ## Stream concatenation -/

theorem collectStream_go (cs : List (Option String)) : ∀ (acc : String),
    (List.foldl
      (fun response c =>
        match c with
        | some s => if s = "" then response else response ++ s
        | none => response)
      acc cs).data
      = acc.data ++ (((cs.filterMap id).map String.data).flatten) := by
  induction cs with
  | nil => intro acc; simp
  | cons c t ih =>
    intro acc
    cases c with
    | none => simp [List.foldl_cons, ih]
    | some s =>
      by_cases hs : s = ""
      · subst hs; simp [List.foldl_cons, ih]
      · simp [List.foldl_cons, hs, ih]

theorem flatten_filter_nonempty (l : List String) :
    (((l.filter (fun s => !s.isEmpty)).map String.data).flatten) =
      ((l.map String.data).flatten) := by
  induction l with
  | nil => rfl
  | cons s t ih =>
    by_cases hs : s.isEmpty
    · have : s = "" := (String.isEmpty_iff s).mp hs
      subst this
      simpa using ih
    · simp [List.filter_cons, hs, ih]

/-- C9: the streamed-response loop produces exactly the in-order
concatenation of the fragments' contents: it equals the join of all
fragment contents (nothing dropped or reordered) and equally the join
of just the non-empty fragment contents. -/
theorem stream_concatenation (chunks : List (Option String)) :
    collectStream chunks = String.join (chunks.filterMap id) ∧
    collectStream chunks =
      String.join ((chunks.filterMap id).filter (fun s => !s.isEmpty)) := by
  constructor
  · apply String.ext
    rw [String.join_eq]
    simpa using collectStream_go chunks ""
  · apply String.ext
    rw [String.join_eq]
    have := collectStream_go chunks ""
    simp only [String.data] at this ⊢
    rw [flatten_filter_nonempty]
    simpa using this

/-! ## Crisis detection -/

/-- C1: the crisis detector returns true iff some keyword of the fixed
list occurs as a substring of the lowercased input; it is a pure
function of the input text. -/
theorem crisis_detector_correct (text : String) :
    check_crisis_keywords text = true ↔
      ∃ keyword ∈ CRISIS_KEYWORDS, keyword.data <:+: (pyLower text).data := by
  simp [check_crisis_keywords, List.any_eq_true, listSub_iff]

/-! ## Context window -/

/-- C5: the completion client is consulted exactly on the request list
consisting of the system messages (exactly 2 without a crisis, exactly
3 with one, all with role "system") followed by the final slice of at
most 10 entries, in order, of the stored history with the current user
message appended. -/
theorem context_window (user_input dt : String) (history : List Message)
    (complete : List Message → Except Unit (List (Option String))) :
    mental_health_chatbot user_input dt complete history
      = mental_health_chatbot user_input dt
          (fun _ => complete (requestMessages user_input dt history)) history ∧
    (system_messages user_input dt).length
      = (if check_crisis_keywords user_input then 3 else 2) ∧
    ((system_messages user_input dt).all (fun m => m.role == "system")) = true ∧
    (requestMessages user_input dt history).take (system_messages user_input dt).length
      = system_messages user_input dt ∧
    (requestMessages user_input dt history).drop (system_messages user_input dt).length
      = takeLast 10 (history ++ [userMsg user_input]) ∧
    (takeLast 10 (history ++ [userMsg user_input])).length ≤ 10 ∧
    takeLast 10 (history ++ [userMsg user_input]) <:+ history ++ [userMsg user_input] := by
  refine ⟨rfl, ?_, ?_, List.take_left _ _, List.drop_left _ _, ?_, List.drop_suffix _ _⟩
  · by_cases h : check_crisis_keywords user_input <;> simp [system_messages, h]
  · by_cases h : check_crisis_keywords user_input <;> simp [system_messages, h]
  · simp only [takeLast, List.length_drop]
    omega

/-! ## Lemmas about splitting, stripping and joining lines -/

theorem consHead_ne_nil (c : Char) (A : List (List Char)) : consHead c A ≠ [] := by
  cases A <;> simp [consHead]

theorem consHead_append (c : Char) (A B : List (List Char)) (hA : A ≠ []) :
    consHead c (A ++ B) = consHead c A ++ B := by
  cases A with
  | nil => exact absurd rfl hA
  | cons h r => simp [consHead]

theorem splitOnChar_ne_nil (sep : Char) (l : List Char) : splitOnChar sep l ≠ [] := by
  cases l with
  | nil => simp [splitOnChar]
  | cons c t =>
    by_cases h : c = sep
    · simp [splitOnChar, h]
    · simp only [splitOnChar, if_neg h]
      exact consHead_ne_nil _ _

theorem splitOnChar_cons_self (sep : Char) (t : List Char) :
    splitOnChar sep (sep :: t) = [] :: splitOnChar sep t := by
  simp [splitOnChar]

theorem splitOnChar_cons_ne (sep c : Char) (t : List Char) (h : ¬ c = sep) :
    splitOnChar sep (c :: t) = consHead c (splitOnChar sep t) := by
  simp [splitOnChar, h]

theorem splitOnChar_append_cons (sep : Char) (a b : List Char) :
    splitOnChar sep (a ++ sep :: b) = splitOnChar sep a ++ splitOnChar sep b := by
  induction a with
  | nil => simp [splitOnChar]
  | cons c t ih =>
    by_cases h : c = sep
    · subst h
      rw [List.cons_append, splitOnChar_cons_self, splitOnChar_cons_self, ih,
        List.cons_append]
    · rw [List.cons_append, splitOnChar_cons_ne sep c _ h, splitOnChar_cons_ne sep c _ h,
        ih, consHead_append _ _ _ (splitOnChar_ne_nil sep t)]

theorem not_mem_of_mem_splitOnChar (sep : Char) :
    ∀ (l : List Char), ∀ piece ∈ splitOnChar sep l, sep ∉ piece := by
  intro l
  induction l with
  | nil =>
    intro piece hp
    simp only [splitOnChar, List.mem_singleton] at hp
    simp [hp]
  | cons c t ih =>
    intro piece hp
    by_cases h : c = sep
    · subst h
      rw [splitOnChar_cons_self] at hp
      rcases List.mem_cons.mp hp with rfl | hp'
      · simp
      · exact ih piece hp'
    · rw [splitOnChar_cons_ne sep c t h] at hp
      cases hsplit : splitOnChar sep t with
      | nil => exact absurd hsplit (splitOnChar_ne_nil sep t)
      | cons p r =>
        rw [hsplit] at hp
        simp only [consHead] at hp
        rcases List.mem_cons.mp hp with rfl | hp'
        · have hp'' : sep ∉ p := ih p (by rw [hsplit]; exact List.mem_cons_self p r)
          intro hmem
          rcases List.mem_cons.mp hmem with rfl | hmem'
          · exact h rfl
          · exact hp'' hmem'
        · exact ih piece (by rw [hsplit]; exact List.mem_cons_of_mem p hp')

theorem splitOnChar_of_not_mem (sep : Char) (l : List Char) (h : sep ∉ l) :
    splitOnChar sep l = [l] := by
  induction l with
  | nil => rfl
  | cons c t ih =>
    have hc : c ≠ sep := fun hcs => h (hcs ▸ List.mem_cons_self c t)
    have ht : sep ∉ t := fun hm => h (List.mem_cons_of_mem c hm)
    simp only [splitOnChar, if_neg (fun hcs => hc hcs), ih ht, consHead]

theorem joinWithNl_cons_cons (x y : List Char) (r : List (List Char)) :
    joinWithNl (x :: y :: r) = x ++ '\n' :: joinWithNl (y :: r) := rfl

theorem joinWithNl_append (P Q : List (List Char)) (hP : P ≠ []) (hQ : Q ≠ []) :
    joinWithNl (P ++ Q) = joinWithNl P ++ '\n' :: joinWithNl Q := by
  induction P with
  | nil => exact absurd rfl hP
  | cons x P' ih =>
    cases P' with
    | nil =>
      cases Q with
      | nil => exact absurd rfl hQ
      | cons q Q' => simp [joinWithNl]
    | cons y P'' =>
      have e1 : (x :: y :: P'') ++ Q = x :: y :: (P'' ++ Q) := by simp
      have e2 : y :: (P'' ++ Q) = (y :: P'') ++ Q := by simp
      rw [e1, joinWithNl_cons_cons, joinWithNl_cons_cons, e2, ih (by simp)]
      simp [List.append_assoc]

theorem splitOnChar_joinWithNl (P : List (List Char)) (hP : P ≠ [])
    (hfree : ∀ p ∈ P, '\n' ∉ p) : splitOnChar '\n' (joinWithNl P) = P := by
  induction P with
  | nil => exact absurd rfl hP
  | cons x P' ih =>
    cases P' with
    | nil =>
      simp only [joinWithNl]
      exact splitOnChar_of_not_mem '\n' x (hfree x (List.mem_cons_self x []))
    | cons y P'' =>
      have hx : '\n' ∉ x := hfree x (List.mem_cons_self x (y :: P''))
      have hrest : ∀ p ∈ y :: P'', '\n' ∉ p := fun p hp =>
        hfree p (List.mem_cons_of_mem x hp)
      simp only [joinWithNl]
      rw [splitOnChar_append_cons, splitOnChar_of_not_mem '\n' x hx, ih (by simp) hrest]
      rfl

theorem joinWithNl_ne_nil (P : List (List Char)) (hP : P ≠ [])
    (hne : ∀ p ∈ P, p ≠ []) : joinWithNl P ≠ [] := by
  cases P with
  | nil => exact absurd rfl hP
  | cons x P' =>
    cases P' with
    | nil => exact hne x (List.mem_cons_self x [])
    | cons y P'' => simp [joinWithNl]

theorem mem_of_mem_stripChars (x : Char) (l : List Char) (h : x ∈ stripChars l) :
    x ∈ l := by
  simp only [stripChars, List.mem_reverse] at h
  have h1 : x ∈ (l.dropWhile isPySpace).reverse :=
    (List.dropWhile_sublist isPySpace).subset h
  rw [List.mem_reverse] at h1
  exact (List.dropWhile_sublist isPySpace).subset h1

theorem mem_cleanPieces_ne_nil (l : List Char) (p : List Char) (hp : p ∈ cleanPieces l) :
    p ≠ [] := by
  simp only [cleanPieces, List.mem_filter, Bool.not_eq_eq_eq_not, Bool.not_true] at hp
  intro hnil
  subst hnil
  simpa using hp.2

theorem mem_cleanPieces_no_nl (l : List Char) (p : List Char) (hp : p ∈ cleanPieces l) :
    '\n' ∉ p := by
  simp only [cleanPieces, List.mem_filter, List.mem_map] at hp
  obtain ⟨⟨q, hq, rfl⟩, _⟩ := hp
  intro hmem
  exact not_mem_of_mem_splitOnChar '\n' l q hq (mem_of_mem_stripChars _ _ hmem)

theorem cleanPieces_append_cons (a b : List Char) :
    cleanPieces (a ++ '\n' :: b) = cleanPieces a ++ cleanPieces b := by
  simp only [cleanPieces]
  rw [splitOnChar_append_cons]
  simp [List.filter_append]

theorem clean_response_eq_nil_iff (s : String) :
    clean_response s = "" ↔ cleanPieces s.data = [] := by
  rw [str_eq_iff_data]
  constructor
  · intro h
    by_contra hne
    exact joinWithNl_ne_nil _ hne (mem_cleanPieces_ne_nil s.data) h
  · intro h
    simp [clean_response, h, joinWithNl]

/-- The lines of a cleaned string are exactly its clean pieces (when
there is at least one). -/
theorem splitOnChar_clean_response (s : String) (h : cleanPieces s.data ≠ []) :
    splitOnChar '\n' (clean_response s).data = cleanPieces s.data :=
  splitOnChar_joinWithNl _ h (mem_cleanPieces_no_nl s.data)

/-! ## History truncation -/

theorem getLast?_takeLast_concat (n : Nat) (l : List α) (a : α) (hn : 0 < n) :
    (takeLast n (l ++ [a])).getLast? = some a := by
  unfold takeLast
  by_cases h : (l ++ [a]).length ≤ n
  · rw [Nat.sub_eq_zero_of_le h]
    simp [List.getLast?_concat]
  · have hk : (l ++ [a]).length - n ≤ l.length := by
      simp only [List.length_append, List.length_cons, List.length_nil]
      omega
    rw [List.drop_append_of_le_length hk, List.getLast?_concat]

theorem truncation_spec (A' : List Message) (a : Message) (S : List Message)
    (hS : S = if (A' ++ [a]).length > 20 then takeLast 20 (A' ++ [a]) else A' ++ [a]) :
    S.length ≤ 20 ∧ S.length = min 20 (A' ++ [a]).length ∧ S <:+ A' ++ [a] ∧
    S.getLast? = some a := by
  subst hS
  by_cases h : (A' ++ [a]).length > 20
  · simp only [if_pos h]
    refine ⟨?_, ?_, List.drop_suffix _ _, getLast?_takeLast_concat 20 A' a (by omega)⟩
    · simp only [takeLast, List.length_drop]
      omega
    · simp only [takeLast, List.length_drop]
      omega
  · simp only [if_neg h]
    exact ⟨by omega, by omega, List.suffix_refl _, List.getLast?_concat _⟩

/-- C4: after every successful turn, for every prior log content, the
persisted log has length at most 20, it is exactly the final slice
(a suffix, of length `min 20 total`) of the previous log with the user
and assistant messages appended — so any dropped entries are exactly
the oldest ones, in order — and its last entry is the assistant message
produced by the turn. -/
theorem history_truncation (user_input dt : String) (chunks : List (Option String))
    (history : List Message) :
    ((mental_health_chatbot user_input dt (fun _ => .ok chunks) history).2).length ≤ 20 ∧
    ((mental_health_chatbot user_input dt (fun _ => .ok chunks) history).2).length
      = min 20 ((history ++ [userMsg user_input])
          ++ [Message.mk "assistant" (rawResponse user_input chunks)]).length ∧
    (mental_health_chatbot user_input dt (fun _ => .ok chunks) history).2
      <:+ (history ++ [userMsg user_input])
          ++ [Message.mk "assistant" (rawResponse user_input chunks)] ∧
    ((mental_health_chatbot user_input dt (fun _ => .ok chunks) history).2).getLast?
      = some (Message.mk "assistant" (rawResponse user_input chunks)) :=
  truncation_spec (history ++ [userMsg user_input])
    (Message.mk "assistant" (rawResponse user_input chunks))
    ((mental_health_chatbot user_input dt (fun _ => .ok chunks) history).2) rfl

/-! ## Stored content versus returned text -/

/-- C10: on every successful turn the assistant message appended to the
history holds the raw post-stripped response (with the crisis block and
its blank lines on crisis turns), while the returned string is
`clean_response` of that stored content and never contains a blank
line; at a concrete crisis turn the two actually differ. -/
theorem stored_vs_returned (user_input dt : String) (chunks : List (Option String))
    (history : List Message) :
    ((mental_health_chatbot user_input dt (fun _ => .ok chunks) history).2).getLast?
      = some (Message.mk "assistant" (rawResponse user_input chunks)) ∧
    (mental_health_chatbot user_input dt (fun _ => .ok chunks) history).1
      = clean_response (rawResponse user_input chunks) ∧
    ((mental_health_chatbot user_input dt (fun _ => .ok chunks) history).1 = "" ∨
      (splitOnChar '\n'
          ((mental_health_chatbot user_input dt (fun _ => .ok chunks) history).1).data).all
        (fun p => !p.isEmpty) = true) ∧
    (mental_health_chatbot "suicide" "d" (fun _ => .ok [some "Hi"]) []).1
      ≠ rawResponse "suicide" [some "Hi"] := by
  refine ⟨(truncation_spec (history ++ [userMsg user_input])
      (Message.mk "assistant" (rawResponse user_input chunks))
      ((mental_health_chatbot user_input dt (fun _ => .ok chunks) history).2) rfl).2.2.2,
    rfl, ?_, by decide⟩
  by_cases h : cleanPieces (rawResponse user_input chunks).data = []
  · left
    show clean_response (rawResponse user_input chunks) = ""
    exact (clean_response_eq_nil_iff _).mpr h
  · right
    show (splitOnChar '\n' (clean_response (rawResponse user_input chunks)).data).all
      (fun p => !p.isEmpty) = true
    rw [splitOnChar_clean_response _ h, List.all_eq_true]
    intro p hp
    have hne := mem_cleanPieces_ne_nil _ p hp
    simpa [List.isEmpty_iff] using hne

/-! ## Crisis-turn output -/

set_option maxRecDepth 16384 in
/-- C2 as stated is false: at the crisis input "suicide" with model
reply "Hello", the returned text contains no blank line at all (no two
consecutive newlines) and does not contain the fixed crisis-resource
block — the final cleaning removed the blank-line separator and the
block's blank lines. -/
theorem crisis_block_absent_from_output :
    ¬ (('\n' :: '\n' :: []) <:+:
        ((mental_health_chatbot "suicide" "d" (fun _ => .ok [some "Hello"]) []).1).data) ∧
    ¬ (get_crisis_resources.data <:+:
        ((mental_health_chatbot "suicide" "d" (fun _ => .ok [some "Hello"]) []).1).data) := by
  have h2 : ¬ (('\n' :: '\n' :: []) <:+:
      ((mental_health_chatbot "suicide" "d" (fun _ => .ok [some "Hello"]) []).1).data) := by
    intro hc
    have hb := (listSub_iff _ _).mpr hc
    have hf : listSub ('\n' :: '\n' :: [])
        ((mental_health_chatbot "suicide" "d" (fun _ => .ok [some "Hello"]) []).1).data
        = false := by decide
    rw [hf] at hb
    exact Bool.false_ne_true hb
  have h1 : ('\n' :: '\n' :: []) <:+: get_crisis_resources.data :=
    (listSub_iff _ _).mp (by decide)
  exact ⟨h2, fun hb => h2 (h1.trans hb)⟩

/-- C2 (amended): on every crisis turn the returned text is the cleaned
reply followed by the cleaned crisis-resource block joined with a
single newline (just the cleaned block when the reply cleans to
nothing); the blank-line separator and the block's blank lines are
removed by the final cleaning, so the full block is not preserved
verbatim. -/
theorem crisis_output_cleaned (user_input dt : String) (chunks : List (Option String))
    (history : List Message) (hc : check_crisis_keywords user_input = true) :
    (mental_health_chatbot user_input dt (fun _ => .ok chunks) history).1
      = (if clean_response (strippedReply chunks) = "" then
           clean_response get_crisis_resources
         else
           clean_response (strippedReply chunks) ++ "\n"
             ++ clean_response get_crisis_resources) := by
  have h1 : (mental_health_chatbot user_input dt (fun _ => .ok chunks) history).1
      = clean_response (rawResponse user_input chunks) := rfl
  have h2 : rawResponse user_input chunks
      = strippedReply chunks ++ "\n\n" ++ get_crisis_resources := by
    simp [rawResponse, hc]
  have hCP : cleanPieces (strippedReply chunks ++ "\n\n" ++ get_crisis_resources).data
      = cleanPieces (strippedReply chunks).data ++ cleanPieces get_crisis_resources.data := by
    have hdata : (strippedReply chunks ++ "\n\n" ++ get_crisis_resources).data
        = (strippedReply chunks).data ++ '\n' :: ([] ++ '\n' :: get_crisis_resources.data) := by
      simp
    rw [hdata, cleanPieces_append_cons, cleanPieces_append_cons]
    rfl
  have hblock : cleanPieces get_crisis_resources.data ≠ [] := by decide
  rw [h1, h2]
  by_cases hrep : cleanPieces (strippedReply chunks).data = []
  · rw [if_pos ((clean_response_eq_nil_iff _).mpr hrep)]
    apply String.ext
    show joinWithNl (cleanPieces (strippedReply chunks ++ "\n\n" ++ get_crisis_resources).data)
      = joinWithNl (cleanPieces get_crisis_resources.data)
    rw [hCP, hrep]
    rfl
  · rw [if_neg (fun he => hrep ((clean_response_eq_nil_iff _).mp he))]
    apply String.ext
    show joinWithNl (cleanPieces (strippedReply chunks ++ "\n\n" ++ get_crisis_resources).data)
      = (clean_response (strippedReply chunks) ++ "\n" ++ clean_response get_crisis_resources).data
    rw [hCP, joinWithNl_append _ _ hrep hblock]
    simp [clean_response]

theorem crisis_output_cleaned_witness :
    check_crisis_keywords "suicide" = true ∧
    (mental_health_chatbot "suicide" "d" (fun _ => .ok [some "Hello"]) []).1
      = (if clean_response (strippedReply [some "Hello"]) = "" then
           clean_response get_crisis_resources
         else
           clean_response (strippedReply [some "Hello"]) ++ "\n"
             ++ clean_response get_crisis_resources) :=
  ⟨by decide, crisis_output_cleaned "suicide" "d" [some "Hello"] [] (by decide)⟩

/-! ## CLI loop -/

/-- C8: for every input line, an exit word (after stripping, compared
case-insensitively) terminates the loop with no orchestrator turn; an
empty stripped line is ignored with no turn; any other line runs
exactly one orchestrator turn on the stripped line and prints its
result. -/
theorem cli_step_behavior (dt line : String)
    (complete : List Message → Except Unit (List (Option String))) (file : Option Json) :
    ((∃ w ∈ EXIT_WORDS, pyLower (pyStrip line) = w) →
       cliStep dt complete file line = ⟨.Terminated, 0, none, file⟩) ∧
    (pyStrip line = "" →
       cliStep dt complete file line = ⟨.Running, 0, none, file⟩) ∧
    (pyStrip line ≠ "" → (∀ w ∈ EXIT_WORDS, pyLower (pyStrip line) ≠ w) →
       cliStep dt complete file line =
         ⟨.Running, 1, some (chatbotTurn (pyStrip line) dt complete file).1,
          (chatbotTurn (pyStrip line) dt complete file).2⟩) := by
  refine ⟨?_, ?_, ?_⟩
  · rintro ⟨w, hw, heq⟩
    have hmem : pyLower (pyStrip line) ∈ EXIT_WORDS := heq ▸ hw
    simp [cliStep, hmem]
  · intro h0
    simp only [cliStep, h0]
    have hmem : pyLower "" ∉ EXIT_WORDS := by decide
    simp [hmem]
  · intro hne hnw
    have hmem : pyLower (pyStrip line) ∉ EXIT_WORDS := fun hm => hnw _ hm rfl
    simp [cliStep, hmem, hne]

theorem cli_step_behavior_witness :
    cliStep "dt" (fun _ => Except.ok []) none "  Quit  " =
      ⟨LoopState.Terminated, 0, none, none⟩ ∧
    cliStep "dt" (fun _ => Except.ok []) none "   " =
      ⟨LoopState.Running, 0, none, none⟩ ∧
    cliStep "dt" (fun _ => Except.ok []) none " hello " =
      ⟨LoopState.Running, 1,
       some (chatbotTurn (pyStrip " hello ") "dt" (fun _ => Except.ok []) none).1,
       (chatbotTurn (pyStrip " hello ") "dt" (fun _ => Except.ok []) none).2⟩ :=
  ⟨(cli_step_behavior "dt" "  Quit  " (fun _ => Except.ok []) none).1 (by decide),
   (cli_step_behavior "dt" "   " (fun _ => Except.ok []) none).2.1 (by decide),
   (cli_step_behavior "dt" " hello " (fun _ => Except.ok []) none).2.2
     (by decide) (by decide)⟩

end MentalHealthBot
